/-
Verification of the "Packing your Dropbox" solver (packing_your_dropbox/main.py)
against its natural-language specification.

The Python program is shallowly embedded below:
* `Box` objects become a structure with `Int` width/height (Python ints).
* Python exceptions become the `PyError` type returned through `Except`.
* `Box.__init__`'s validation becomes `mkBox` over `ℚ`: a rational models a
  supplied Python numeric value, and `q.den = 1` models `isinstance(q, int)`.
* The mutating method `Box.rotate` (which swaps `_width`/`_height` in place and
  returns `None`) is split into `Box.rotate`, the post-state of the mutated
  object, and `Box.rotateRet`, the method's return value (always `None`).
* `Package` state (`_boxes`, `_pack_size`, `G`) becomes the `Package`
  structure; the tuple-encoded join tree stored in `G` becomes `GTree`.
  The local variable `rb` of `shake_down` is a single mutable Box object that
  may be referenced (aliased) several times from the tree under construction,
  so tree leaves are either a concrete box or a reference to `rb`
  (`GTree.rbLeaf`), and `G` stores the tree together with the final value of
  `rb`.
* Python's `list.sort(key=...)` is a stable sort by key; it is embedded as
  `List.insertionSort` with the total preorder `areaLe`, which computes the
  unique stable sort by non-decreasing area.
-/
import Mathlib

/-- A box: `class Box` of main.py.  Width and height are Python ints.
Equality of `Box` values models object identity (the class defines no
`__eq__`, so Python `in`/`==` compare identity; every `Box` value below
stands for one object). -/
structure Box where
  width : Int
  height : Int
deriving DecidableEq

/-- Python exceptions raised by main.py's classes.  `Box.__init__` raises
`TypeError` with a static message; `Package.add_box` raises `ValueError`
(its message interpolates the object's memory address, which has no
counterpart in the embedding, so the constructor carries no message). -/
inductive PyError where
  | typeError (msg : String)
  | valueError
deriving DecidableEq

/-- Shape constant `Box.SQUARE_SHAPE = 0`. -/
def Box.SQUARE_SHAPE : Nat := 0

/-- Shape constant `Box.HORIZONTAL_SHAPE = 1`. -/
def Box.HORIZONTAL_SHAPE : Nat := 1

/-- Shape constant `Box.VERTICAL_SHAPE = 2`. -/
def Box.VERTICAL_SHAPE : Nat := 2

/-- Whether a Python numeric value (modelled as a rational) is an `int`:
`isinstance(x, int)`. -/
def isPyInt (q : ℚ) : Prop := q.den = 1

instance (q : ℚ) : Decidable (isPyInt q) :=
  inferInstanceAs (Decidable (q.den = 1))

/-- `Box.__init__(self, width, height)`: validates each dimension with
`if width <= 0 or not isinstance(width, int): raise TypeError(...)` (then the
same for `height`) and stores the dimensions. -/
def mkBox (width height : ℚ) : Except PyError Box :=
  if width ≤ 0 ∨ ¬ isPyInt width then
    .error (.typeError "width must be a positive integer")
  else if height ≤ 0 ∨ ¬ isPyInt height then
    .error (.typeError "height must be a positive integer")
  else
    .ok ⟨width.num, height.num⟩

/-- The `shape` property: `HORIZONTAL_SHAPE` if `width > height`,
`VERTICAL_SHAPE` if `width < height`, else `SQUARE_SHAPE`. -/
def Box.shape (b : Box) : Nat :=
  if b.width > b.height then Box.HORIZONTAL_SHAPE
  else if b.width < b.height then Box.VERTICAL_SHAPE
  else Box.SQUARE_SHAPE

/-- The `area` property: `width * height`. -/
def Box.area (b : Box) : Int := b.width * b.height

/-- Post-state of `Box.rotate()`: the method swaps `_width` and `_height`
in place (`self._width, self._height = self._height, self._width`); this is
the state of the mutated object afterwards. -/
def Box.rotate (b : Box) : Box := ⟨b.height, b.width⟩

/-- Return value of `Box.rotate()`: the method body is a bare assignment, so
the call returns `None`. -/
def Box.rotateRet (_ : Box) : Option Box := none

/-- C2 counterexample: `rotate()` does not return a new Box (it returns
`None`) and does not leave the receiver unchanged (it mutates it in place):
on the box 2×3 the return value is `none` and the post-state is 3×2. -/
theorem rotate_returns_none_and_mutates :
    Box.rotateRet ⟨2, 3⟩ = none ∧ Box.rotate ⟨2, 3⟩ ≠ ⟨2, 3⟩ := by
  exact ⟨rfl, by decide⟩

/-- C2 (amended): `rotate()` swaps the receiver's width and height in place —
the post-state's width is the old height and its height is the old width —
and returns `None` rather than a new Box. -/
theorem rotate_swaps_in_place (b : Box) :
    (b.rotate).width = b.height ∧ (b.rotate).height = b.width ∧
      b.rotateRet = none :=
  ⟨rfl, rfl, rfl⟩

/-- C9: rotating twice restores the original box, and a single rotation
preserves the area. -/
theorem rotate_involutive_area_invariant (b : Box) :
    b.rotate.rotate = b ∧ (b.rotate).area = b.area := by
  refine ⟨rfl, ?_⟩
  simp [Box.rotate, Box.area, Int.mul_comm]

/-- C5 counterexample: a square box is classified `SQUARE_SHAPE`, a third
constant distinct from `HORIZONTAL_SHAPE`, so ties do not resolve to
HORIZONTAL. -/
theorem shape_square_not_horizontal :
    Box.shape ⟨2, 2⟩ = Box.SQUARE_SHAPE ∧
      Box.SQUARE_SHAPE ≠ Box.HORIZONTAL_SHAPE := by
  exact ⟨rfl, by decide⟩

/-- C5 (amended): `shape` classifies a box as HORIZONTAL when width > height,
as VERTICAL when width < height, and as SQUARE when width = height. -/
theorem shape_classification (b : Box) :
    (b.width > b.height → b.shape = Box.HORIZONTAL_SHAPE) ∧
      (b.width < b.height → b.shape = Box.VERTICAL_SHAPE) ∧
      (b.width = b.height → b.shape = Box.SQUARE_SHAPE) := by
  refine ⟨fun h => ?_, fun h => ?_, fun h => ?_⟩
  · simp only [Box.shape]
    rw [if_pos h]
  · simp only [Box.shape]
    rw [if_neg (by omega), if_pos h]
  · simp only [Box.shape]
    rw [if_neg (by omega), if_neg (by omega)]

/-- C5 witness: the three classification branches at concrete boxes
3×2 (horizontal), 2×3 (vertical) and 2×2 (square). -/
theorem shape_classification_witness :
    Box.shape ⟨3, 2⟩ = Box.HORIZONTAL_SHAPE ∧
      Box.shape ⟨2, 3⟩ = Box.VERTICAL_SHAPE ∧
      Box.shape ⟨2, 2⟩ = Box.SQUARE_SHAPE :=
  ⟨(shape_classification ⟨3, 2⟩).1 (by decide),
   (shape_classification ⟨2, 3⟩).2.1 (by decide),
   (shape_classification ⟨2, 2⟩).2.2 (by decide)⟩

/-- C6: box construction fails exactly when a supplied dimension is ≤ 0 or
not an integer value, and on a pair of positive integers it succeeds and
stores exactly the supplied width and height. -/
theorem mkBox_spec (w h : ℚ) :
    ((∃ e, mkBox w h = .error e) ↔
        (w ≤ 0 ∨ h ≤ 0 ∨ ¬ isPyInt w ∨ ¬ isPyInt h)) ∧
      (0 < w → 0 < h → isPyInt w → isPyInt h →
        mkBox w h = .ok ⟨w.num, h.num⟩) := by
  constructor
  · unfold mkBox
    split_ifs with h1 h2
    · exact iff_of_true ⟨_, rfl⟩ (by tauto)
    · exact iff_of_true ⟨_, rfl⟩ (by tauto)
    · push_neg at h1 h2
      simp only [reduceCtorEq, exists_false, false_iff]
      push_neg
      exact ⟨h1.1, h2.1, h1.2, h2.2⟩
  · intro hw hh hiw hih
    unfold mkBox
    rw [if_neg, if_neg]
    · push_neg
      exact ⟨hh, hih⟩
    · push_neg
      exact ⟨hw, hiw⟩

/-- C6 witness: at the concrete positive integers 3 and 4 construction
succeeds with exactly those dimensions. -/
theorem mkBox_spec_witness :
    0 < (3 : ℚ) ∧ 0 < (4 : ℚ) ∧ isPyInt 3 ∧ isPyInt 4 ∧
      mkBox 3 4 = .ok ⟨3, 4⟩ :=
  ⟨by norm_num, by norm_num, by norm_num [isPyInt], by norm_num [isPyInt],
    (mkBox_spec 3 4).2 (by norm_num) (by norm_num) (by norm_num [isPyInt])
      (by norm_num [isPyInt])⟩

/-- Join direction in the tuple tree built by `shake_down`: the third tuple
component, `'right'` or `'bottom'`. -/
inductive JoinT where
  | right
  | bottom
deriving DecidableEq

/-- The tuple-encoded join tree stored in `Package.G`.  A leaf is either a
concrete `Box` from `_boxes` or a reference to the mutable local `rb` of
`shake_down` (the same rotated-copy object can be referenced from several
leaves and is mutated between iterations, so its value is kept outside the
tree and substituted at each read). -/
inductive GTree where
  | boxLeaf (b : Box)
  | rbLeaf
  | join (a b : GTree) (t : JoinT)
deriving DecidableEq

/-- `rec_width(a, b, t)` of `shake_down`: width of a join tree — a box
contributes its width, `'right'` sums, `'bottom'` takes the max.  `rb` is the
current value of the aliased rotated box. -/
def rec_width (rb : Box) : GTree → Int
  | .boxLeaf b => b.width
  | .rbLeaf => rb.width
  | .join a b .right => rec_width rb a + rec_width rb b
  | .join a b .bottom => max (rec_width rb a) (rec_width rb b)

/-- `rec_height(a, b, t)` of `shake_down`: height of a join tree — `'right'`
takes the max, `'bottom'` sums. -/
def rec_height (rb : Box) : GTree → Int
  | .boxLeaf b => b.height
  | .rbLeaf => rb.height
  | .join a b .right => max (rec_height rb a) (rec_height rb b)
  | .join a b .bottom => rec_height rb a + rec_height rb b

/-- Comparison used by `self._boxes.sort(key=lambda b: b.area)`: the total
preorder on boxes by area. -/
def areaLe (a b : Box) : Prop := a.area ≤ b.area

instance : DecidableRel areaLe :=
  fun a b => inferInstanceAs (Decidable (a.area ≤ b.area))

instance : IsTotal Box areaLe := ⟨fun a b => Int.le_total a.area b.area⟩

instance : IsTrans Box areaLe := ⟨fun _ _ _ hab hbc => le_trans hab hbc⟩

/-- `self._boxes.sort(key=lambda b: b.area)`: Python's `list.sort` is a
stable sort by key; the unique stable sort by non-decreasing area is computed
by insertion sort over the total preorder `areaLe`. -/
def sortByArea (l : List Box) : List Box := l.insertionSort areaLe

/-- State of a `Package` object: `_boxes`, `_pack_size`, and `G`.  `G`
stores the join tree together with the final value of the aliased local `rb`
(`none` models the initial `self.G = None`). -/
structure Package where
  boxes : List Box
  packSize : Int
  G : Option (GTree × Box)
deriving DecidableEq

/-- `Package.__init__`: empty box list, `_pack_size = 0`, `G = None`. -/
def emptyPackage : Package := ⟨[], 0, none⟩

/-- First loop iteration of `shake_down` (the `if not t` branch): compares
`cb` (the first box) with `nb` using plain and rotated deltas and builds the
initial tuple `t`; `rb` is the freshly created rotated copy
`Box(nb.width, nb.height)` after `rb.rotate()`. -/
def shakeFirst (cb nb : Box) : GTree × Box :=
  let dw := |cb.width - nb.width|
  let dh := |cb.height - nb.height|
  let rb := (Box.mk nb.width nb.height).rotate
  let rdw := |cb.width - rb.width|
  let rdh := |cb.height - rb.height|
  if dw ≥ dh ∧ dw ≥ rdw then (.join (.boxLeaf nb) (.boxLeaf cb) .right, rb)
  else if dw ≥ rdw then (.join .rbLeaf (.boxLeaf cb) .right, rb)
  else if dh ≥ rdh then (.join (.boxLeaf nb) (.boxLeaf cb) .bottom, rb)
  else (.join .rbLeaf (.boxLeaf cb) .bottom, rb)

/-- Subsequent loop iterations of `shake_down` (the `else` branch): measures
the accumulated tree, then executes `rb.rotate()` — mutating the existing
`rb` object, which is also what any `rbLeaf` already in the tree now shows —
and extends the tuple with `nb` or with another reference to `rb`. -/
def shakeStep (st : GTree × Box) (nb : Box) : GTree × Box :=
  let t := st.1
  let w := rec_width st.2 t
  let h := rec_height st.2 t
  let dw := |w - nb.width|
  let dh := |h - nb.height|
  let rb := st.2.rotate
  let rdw := |w - rb.width|
  let rdh := |h - rb.height|
  if dw ≥ dh ∧ dw ≥ rdw then (.join t (.boxLeaf nb) .right, rb)
  else if dw ≥ rdw then (.join t .rbLeaf .right, rb)
  else if dh ≥ rdh then (.join t (.boxLeaf nb) .bottom, rb)
  else (.join t .rbLeaf .bottom, rb)

/-- `Package.shake_down`: with no boxes it sets `_pack_size = 0` (leaving `G`
alone); with one box it sets `_pack_size` to that box's area (leaving `G`
alone); with two or more boxes it folds the loop over `_boxes[1:]` and stores
the resulting tuple tree in `G` — leaving `_pack_size` alone. -/
def Package.shake_down (p : Package) : Package :=
  match p.boxes with
  | [] => { p with packSize := 0 }
  | [b] => { p with packSize := b.area }
  | cb :: nb :: rest => { p with G := some (rest.foldl shakeStep (shakeFirst cb nb)) }

/-- `Package.add_box`: rejects a box already in `_boxes` with `ValueError`
(Python `in` compares object identity here), otherwise appends it, re-sorts
`_boxes` stably by area, and runs `shake_down`.  (The `isinstance(box, Box)`
`TypeError` guard is unrepresentable: the embedding is typed.) -/
def Package.add_box (p : Package) (b : Box) : Except PyError Package :=
  if b ∈ p.boxes then .error .valueError
  else .ok (Package.shake_down { p with boxes := sortByArea (p.boxes ++ [b]) })

/-- The `area` property of `Package`: returns `_pack_size`. -/
def Package.area (p : Package) : Int := p.packSize

/-- The packing operation as driven by `main()`: add the input boxes one by
one to a fresh package; any exception aborts the run. -/
def addAllFrom (p : Package) : List Box → Except PyError Package
  | [] => .ok p
  | b :: bs =>
    match p.add_box b with
    | .ok p2 => addAllFrom p2 bs
    | .error e => .error e

/-- Run the whole packing operation from an empty package. -/
def addAllBoxes (bs : List Box) : Except PyError Package :=
  addAllFrom emptyPackage bs

/-- The local `boxes` of the stub `pack_boxes` after its only line:
`sorted(boxes, key=lambda b: b[0]*b[1], reverse=True)`, a stable sort in
non-increasing order of area. -/
def pack_boxes_sorted (boxes : List (Int × Int)) : List (Int × Int) :=
  boxes.insertionSort (fun a b => a.1 * a.2 ≥ b.1 * b.2)

/-- The stub `pack_boxes`: its body only builds the sorted local list and
falls off the end, returning `None`. -/
def pack_boxes (boxes : List (Int × Int)) : Option (List (Int × Int)) :=
  let _ := pack_boxes_sorted boxes
  none

/-- The box ordering asserted by the spec (for comparison with the code's
ordering): stable sort in non-increasing order of `min(width, height)`. -/
def specMinDimOrder (l : List Box) : List Box :=
  l.insertionSort (fun a b => min a.width a.height ≥ min b.width b.height)

/-- Totality of the area preorder, in the form used below. -/
theorem areaLe_total_of_not {x y : Box} (h : ¬ areaLe x y) : areaLe y x :=
  (Int.le_total x.area y.area).resolve_left h

/-- Inserting two boxes into a list by area is order-independent when their
areas are strictly ordered. -/
theorem orderedInsert_comm (x y : Box) (h : ¬ areaLe x y) (l : List Box) :
    (l.orderedInsert areaLe y).orderedInsert areaLe x
      = (l.orderedInsert areaLe x).orderedInsert areaLe y := by
  have hyx : areaLe y x := areaLe_total_of_not h
  induction l with
  | nil => simp [List.orderedInsert, h, hyx]
  | cons z zs ih =>
    by_cases hxz : areaLe x z
    · have hyz : areaLe y z := le_trans hyx hxz
      simp [List.orderedInsert, hxz, hyz, h, hyx]
    · by_cases hyz : areaLe y z
      · simp [List.orderedInsert, hxz, hyz, h, hyx]
      · simp [List.orderedInsert, hxz, hyz, ih]

/-- Unfolding equation: sorting a cons is an ordered insertion into the
sorted tail. -/
theorem sortByArea_cons (x : Box) (l : List Box) :
    sortByArea (x :: l) = (sortByArea l).orderedInsert areaLe x := rfl

/-- Appending a box and sorting commutes with a pending ordered insertion. -/
theorem sortByArea_orderedInsert_append (x b : Box) (l : List Box) :
    sortByArea (l.orderedInsert areaLe x ++ [b])
      = (sortByArea (l ++ [b])).orderedInsert areaLe x := by
  induction l with
  | nil => rfl
  | cons y ys ih =>
    by_cases hxy : areaLe x y
    · simp only [List.orderedInsert, if_pos hxy, List.cons_append,
        sortByArea_cons]
    · simp only [List.orderedInsert, if_neg hxy, List.cons_append,
        sortByArea_cons] at ih ⊢
      rw [ih, ← orderedInsert_comm x y hxy]

/-- Re-sorting an already sorted list with one new element appended gives the
same result as sorting the original list with that element appended: the
incremental `append`-then-`sort` of `add_box` computes the stable sort of the
full insertion sequence. -/
theorem sortByArea_idem_append (l : List Box) (b : Box) :
    sortByArea (sortByArea l ++ [b]) = sortByArea (l ++ [b]) := by
  induction l with
  | nil => rfl
  | cons x xs ih =>
    rw [List.cons_append, sortByArea_cons, sortByArea_cons,
      sortByArea_orderedInsert_append x b (sortByArea xs), ih]

/-- `shake_down` never changes `_boxes`; it only updates `_pack_size` or
`G`. -/
theorem shake_down_boxes (p : Package) :
    ∃ ps g, p.shake_down = ⟨p.boxes, ps, g⟩ := by
  obtain ⟨boxes, packSize, G⟩ := p
  rcases boxes with _ | ⟨a, _ | ⟨c, rest⟩⟩
  · exact ⟨0, G, rfl⟩
  · exact ⟨a.area, G, rfl⟩
  · exact ⟨packSize, some (rest.foldl shakeStep (shakeFirst a c)), rfl⟩

/-- Adding a duplicate-free batch of boxes to a package whose box list is the
sorted image of `l` succeeds and leaves the box list sorted over `l` plus the
batch. -/
theorem addAllFrom_boxes (bs : List Box) :
    ∀ (l : List Box) (ps : Int) (g : Option (GTree × Box)),
      (l ++ bs).Nodup →
      ∃ p, addAllFrom ⟨sortByArea l, ps, g⟩ bs = .ok p ∧
        p.boxes = sortByArea (l ++ bs) := by
  induction bs with
  | nil => exact fun l ps g _ => ⟨⟨sortByArea l, ps, g⟩, rfl, by simp⟩
  | cons b bs ih =>
    intro l ps g h
    have hbl : b ∉ l := by
      simp only [List.nodup_append, List.disjoint_cons_right] at h
      exact fun hm => h.2.2.1 hm
    have hmem : b ∉ sortByArea l := by
      simpa [sortByArea, List.mem_insertionSort] using hbl
    have hnodup : ((l ++ [b]) ++ bs).Nodup := by
      rwa [List.append_cons] at h
    obtain ⟨ps2, g2, hsd⟩ :=
      shake_down_boxes ⟨sortByArea (l ++ [b]), ps, g⟩
    obtain ⟨p, hp, hb⟩ := ih (l ++ [b]) ps2 g2 hnodup
    refine ⟨p, ?_, by rwa [← List.append_cons] at hb⟩
    simp only [addAllFrom, Package.add_box, if_neg hmem,
      sortByArea_idem_append, hsd]
    exact hp

/-- C1 counterexample: on the input `[(3,3), (1,10), (1,8)]` the code's box
order after packing is `[(1,8), (3,3), (1,10)]` — non-decreasing area — while
the claimed non-increasing `min(width, height)` order is
`[(3,3), (1,10), (1,8)]`; the uncalled `pack_boxes` stub instead sorts its
local copy to `[(1,10), (3,3), (1,8)]` (non-increasing area), which also
differs from the claimed order. -/
theorem ordering_not_by_min_dim :
    (addAllBoxes [⟨3, 3⟩, ⟨1, 10⟩, ⟨1, 8⟩]).map Package.boxes
        = .ok [⟨1, 8⟩, ⟨3, 3⟩, ⟨1, 10⟩] ∧
      specMinDimOrder [⟨3, 3⟩, ⟨1, 10⟩, ⟨1, 8⟩]
        = [⟨3, 3⟩, ⟨1, 10⟩, ⟨1, 8⟩] ∧
      pack_boxes_sorted [(3, 3), (1, 10), (1, 8)]
        = [(1, 10), (3, 3), (1, 8)] ∧
      ([⟨1, 8⟩, ⟨3, 3⟩, ⟨1, 10⟩] : List Box) ≠ [⟨3, 3⟩, ⟨1, 10⟩, ⟨1, 8⟩] := by
  exact ⟨rfl, rfl, rfl, by decide⟩

/-- C1 (amended): the packing operation keeps the boxes sorted in
NON-DECREASING order of area (`width * height`), not by `min(width, height)`;
ties are stable.  Concretely, packing a duplicate-free input sequence
succeeds and the final box list is exactly the stable insertion sort of the
input by area — hence sorted by non-decreasing area and a permutation of the
input. -/
theorem add_box_sorts_by_area (bs : List Box) (h : bs.Nodup) :
    ∃ p, addAllBoxes bs = .ok p ∧ p.boxes = sortByArea bs ∧
      p.boxes.Sorted areaLe ∧ p.boxes.Perm bs := by
  obtain ⟨p, hp, hb⟩ := addAllFrom_boxes bs [] 0 none (by simpa using h)
  refine ⟨p, hp, by simpa using hb, ?_, ?_⟩
  · rw [hb]
    exact List.sorted_insertionSort areaLe ([] ++ bs)
  · rw [hb]
    simpa using List.perm_insertionSort areaLe bs

/-- C1 witness: packing the duplicate-free boxes 2×1 and 1×7 succeeds and
yields exactly the stable sort by area. -/
theorem add_box_sorts_by_area_witness :
    ([⟨2, 1⟩, ⟨1, 7⟩] : List Box).Nodup ∧
      (addAllBoxes [⟨2, 1⟩, ⟨1, 7⟩]).map Package.boxes
        = .ok (sortByArea [⟨2, 1⟩, ⟨1, 7⟩]) := by
  refine ⟨by decide, ?_⟩
  obtain ⟨p, h1, h2, -, -⟩ :=
    add_box_sorts_by_area [⟨2, 1⟩, ⟨1, 7⟩] (by decide)
  rw [h1]
  exact congrArg Except.ok h2

/-- C3 counterexample: packing zero boxes does not fail — there is no
`EmptyInput` error anywhere in the code — and it does return an area value,
namely 0. -/
theorem empty_input_no_error :
    addAllBoxes [] = .ok emptyPackage ∧ emptyPackage.area = 0 :=
  ⟨rfl, rfl⟩

/-- C3 (amended): invoking the packing operation on an empty input sequence
succeeds and reports area 0 (`shake_down` sets `_pack_size = 0` for an empty
pack, and a fresh package already starts with `_pack_size = 0`). -/
theorem empty_input_area_zero :
    (addAllBoxes []).map Package.area = .ok 0 ∧
      emptyPackage.shake_down.area = 0 :=
  ⟨rfl, rfl⟩

/-- C4 counterexample: on the input `[(5,1), (1,5)]` the reported area is 5,
not 10 — `shake_down` updates `_pack_size` only for packs of zero or one
boxes, so the value left by the first `add_box` survives. -/
theorem scenario_5_1_area_not_10 :
    (addAllBoxes [⟨5, 1⟩, ⟨1, 5⟩]).map Package.area = .ok 5 ∧
      (5 : Int) ≠ 10 :=
  ⟨rfl, by decide⟩

/-- C4 (amended): on the input `[(5,1), (1,5)]` the packing operation keeps
the boxes in order `[(5,1), (1,5)]`, reports the stale area 5 (the pack size
computed when only `(5,1)` was present), and its arrangement joins `(1,5)`
and `(5,1)` side by side (`'right'`), a bounding rectangle of total width 6
and total height 5 — not width 5 and height 2. -/
theorem scenario_5_1_actual :
    addAllBoxes [⟨5, 1⟩, ⟨1, 5⟩] = .ok ⟨[⟨5, 1⟩, ⟨1, 5⟩], 5,
        some (.join (.boxLeaf ⟨1, 5⟩) (.boxLeaf ⟨5, 1⟩) .right, ⟨5, 1⟩)⟩ ∧
      rec_width ⟨5, 1⟩ (.join (.boxLeaf ⟨1, 5⟩) (.boxLeaf ⟨5, 1⟩) .right)
        = 6 ∧
      rec_height ⟨5, 1⟩ (.join (.boxLeaf ⟨1, 5⟩) (.boxLeaf ⟨5, 1⟩) .right)
        = 5 :=
  ⟨rfl, rfl, rfl⟩

/-- C7: packing a single box of positive dimensions w×h yields a package
holding exactly that one box (no join structure, `G = None`) whose reported
area is `w * h`. -/
theorem single_box_packs_alone (w h : Int) (_ : 0 < w) (_ : 0 < h) :
    addAllBoxes [⟨w, h⟩] = .ok ⟨[⟨w, h⟩], w * h, none⟩ := rfl

/-- C7 witness: the single box 2×3 packs to the one-box package of area 6. -/
theorem single_box_packs_alone_witness :
    0 < (2 : Int) ∧ 0 < (3 : Int) ∧
      addAllBoxes [⟨2, 3⟩] = .ok ⟨[⟨2, 3⟩], 6, none⟩ := by
  refine ⟨by decide, by decide, ?_⟩
  have h := single_box_packs_alone 2 3 (by decide) (by decide)
  simpa using h

/-- C8: the packing operation is deterministic — running it on equal input
sequences yields identical packages (same box order, same arrangement `G`,
same reported area). -/
theorem packing_deterministic (bs1 bs2 : List Box) (h : bs1 = bs2) :
    addAllBoxes bs1 = addAllBoxes bs2 ∧
      (addAllBoxes bs1).map Package.area = (addAllBoxes bs2).map Package.area ∧
      (addAllBoxes bs1).map Package.G = (addAllBoxes bs2).map Package.G := by
  subst h
  exact ⟨rfl, rfl, rfl⟩

/-- C8 witness: two runs on the concrete input `[(5,1), (1,5)]` agree. -/
theorem packing_deterministic_witness :
    ([⟨5, 1⟩, ⟨1, 5⟩] : List Box) = [⟨5, 1⟩, ⟨1, 5⟩] ∧
      addAllBoxes [⟨5, 1⟩, ⟨1, 5⟩] = addAllBoxes [⟨5, 1⟩, ⟨1, 5⟩] :=
  ⟨rfl, (packing_deterministic [⟨5, 1⟩, ⟨1, 5⟩] [⟨5, 1⟩, ⟨1, 5⟩] rfl).1⟩

/-- C10: adding a box already contained in the package fails with
`ValueError`; since the error is raised before any mutation, the package's
box collection is untouched (the returned computation carries no modified
package). -/
theorem add_box_duplicate_rejected (p : Package) (b : Box)
    (h : b ∈ p.boxes) : p.add_box b = .error .valueError := by
  unfold Package.add_box
  rw [if_pos h]

/-- C10 witness: re-adding the box 2×3 to the package that already contains
it is rejected with `ValueError`. -/
theorem add_box_duplicate_rejected_witness :
    (⟨2, 3⟩ : Box) ∈ ([⟨2, 3⟩] : List Box) ∧
      Package.add_box ⟨[⟨2, 3⟩], 6, none⟩ ⟨2, 3⟩ = .error .valueError :=
  ⟨by decide, add_box_duplicate_rejected ⟨[⟨2, 3⟩], 6, none⟩ ⟨2, 3⟩ (by decide)⟩
